import Mathlib

/-!
Verification of the novyx-memory-skill client (`src/index.js`, class
`NovyxMemory`) against its natural-language specification.

The JavaScript client is shallowly embedded as pure Lean functions.  The
underlying `axios` HTTP call of each method is modelled as an oracle
parameter of type `Except HttpError Json`: `.ok data` stands for a
resolved response carrying `response.data`, `.error e` for a rejected
promise (the `catch` branch of the method).  Each method returns a
`CallResult` bundling the value returned to the caller (a dynamic JSON
value, since JavaScript is untyped), the list of HTTP requests the
method issued, and the diagnostic log lines emitted by `_handleError`.

The embedding is two-level.  The simplified methods (`remember`,
`forget`, `recall'`, `stats`, `edges`, `usage`…) are total: they
restrict `_handleError` to payloads whose `code` and `error` fields
are strings or absent, the only payloads on which the source's catch
branch completes.  The faithful variants (`handleErrorJS`,
`classifyJS`, `rememberJS`, …) model the full JavaScript semantics of
`_handleError`'s 403 branch, where `code.includes("upgrade")` on a
truthy non-string `code`, or `data.error?.toLowerCase()` on a
non-nullish non-string `error`, throws a TypeError inside the catch
block — the async method then rejects to its caller instead of
returning its zero value.
-/

/-- Dynamic JSON-like values, the codomain of every client method
(JavaScript is dynamically typed; `null` doubles for `undefined`). -/
inductive Json where
  | null : Json
  | bool (b : Bool) : Json
  | num (n : Int) : Json
  | str (s : String) : Json
  | arr (xs : List Json) : Json
  | obj (fields : List (String × Json)) : Json

/-- JavaScript truthiness of a JSON value (`undefined`/`null`, `false`,
`0` and `""` are falsy; arrays and objects are always truthy). -/
def Json.truthy : Json → Bool
  | .null => false
  | .bool b => b
  | .num n => n != 0
  | .str s => !s.isEmpty
  | .arr _ => true
  | .obj _ => true

/-- Property access `j.k`: field lookup on an object, `undefined`
(modelled as `.null`) on anything else or when the field is missing. -/
def Json.get (j : Json) (k : String) : Json :=
  match j with
  | .obj fields =>
    match fields.lookup k with
    | some v => v
    | none => .null
  | _ => .null

/-- String field access with the JavaScript idiom `data.k || ""`:
yields the string when the field holds one, `""` otherwise. -/
def jsonFieldStr (j : Json) (k : String) : String :=
  match j.get k with
  | .str s => s
  | _ => ""

/-- Character-list prefix test, the helper of `containsSub`. -/
def isPrefixList : List Char → List Char → Bool
  | [], _ => true
  | _ :: _, [] => false
  | a :: as, b :: bs => a == b && isPrefixList as bs

/-- Occurrence of `pat` at some position of the character list. -/
def containsSubAux (pat : List Char) : List Char → Bool
  | [] => pat.isEmpty
  | c :: rest => isPrefixList pat (c :: rest) || containsSubAux pat rest

/-- JavaScript `s.includes(pat)`: `pat` occurs somewhere in `s`. -/
def containsSub (s pat : String) : Bool :=
  containsSubAux pat.data s.data

/-- JavaScript `s.toLowerCase()` (character-wise lowering). -/
def lowerString (s : String) : String :=
  ⟨s.data.map Char.toLower⟩

/-- A rejected axios promise: either a response arrived with a non-2xx
status (`error.response`, carrying `status` and `data`), or the request
was made but no response arrived (`error.request`). -/
inductive HttpError where
  | response (status : Nat) (data : Json) : HttpError
  | network (msg : String) : HttpError

/-- The error taxonomy of the specification (section 3, ProviderError). -/
inductive ProviderError where
  | rateLimited : ProviderError
  | forbiddenNeedsUpgrade : ProviderError
  | forbiddenBadCredentials : ProviderError
  | apiError (status : Nat) : ProviderError
  | networkError : ProviderError
deriving DecidableEq

/-- One HTTP request issued by the client: method, URL, query
parameters and body (`.null` when the request has no body). -/
structure Request where
  verb : String
  url : String
  queryParams : List (String × String)
  body : Json

/-- What one client method call produces: the value returned to the
caller, the HTTP requests issued, and the diagnostic log lines. -/
structure CallResult where
  result : Json
  requests : List Request
  logs : List String

/-- The client instance state set up by the constructor of
`NovyxMemory` (src/index.js lines 17-27): `apiKey` is `none` when
neither the config nor the environment provides one. -/
structure NovyxMemory where
  apiKey : Option String
  apiUrl : String
  autoSave : Bool
  autoRecall : Bool
  recallLimit : Nat

/-- JavaScript truthiness of `this.apiKey` (absent or empty is falsy). -/
def keyTruthy : Option String → Bool
  | none => false
  | some s => !s.isEmpty

/-- The upgrade test of `_handleError` on a 403 payload
(src/index.js line 156), restricted to payloads whose `code` and
`error` fields are strings or absent — the payloads on which the
source line completes without throwing: `code.includes("upgrade")` on
`data.code || ""`, or `data.error?.toLowerCase().includes("upgrade")`
(an absent `error` field yields `""`, on which the test is false,
matching the short-circuiting optional chain).  The full JavaScript
semantics, including the TypeError thrown on truthy non-string
fields, is `upgradeTestJS` below. -/
def upgradeIndicated (data : Json) : Bool :=
  containsSub (jsonFieldStr data "code") "upgrade" ||
    containsSub (lowerString (jsonFieldStr data "error")) "upgrade"

/-- `_handleError(error, action)` (src/index.js lines 147-167)
restricted to the payloads on which it completes (see
`upgradeIndicated`): emits one diagnostic line per failure.  The
`else` arm on line 161 logs `data` too; only the text prefix is
modelled.  The full semantics is `handleErrorJS` below. -/
def handleError (e : HttpError) (action : String) : List String :=
  match e with
  | .response status data =>
    if status = 429 then
      ["[Novyx] Rate limit during " ++ action ++
        ". Upgrade at novyxlabs.com/pricing"]
    else if status = 403 then
      if upgradeIndicated data then
        ["[Novyx] " ++
          (if (jsonFieldStr data "error").isEmpty then "Upgrade required"
           else jsonFieldStr data "error") ++
          " during " ++ action ++ ". Upgrade at novyxlabs.com/pricing"]
      else
        ["[Novyx] Access forbidden during " ++ action ++
          ". Check your API key."]
    else
      ["[Novyx] API Error (" ++ toString status ++ ") during " ++
        action ++ ":"]
  | .network msg =>
    ["[Novyx] Network Error during " ++ action ++ ": " ++ msg]

/-- JavaScript `v.includes(pat)` as the partial operation it is: a
string tests substring occurrence, an array tests SameValueZero
membership of the string `pat`, and any other receiver has no
`includes` method, so the call throws a TypeError. -/
def jsIncludes (v : Json) (pat : String) : Except String Bool :=
  match v with
  | .str s => .ok (containsSub s pat)
  | .arr xs => .ok (xs.any (fun x =>
      match x with
      | .str s => s == pat
      | _ => false))
  | _ => .error "TypeError: includes is not a function"

/-- JavaScript `v?.toLowerCase().includes(pat)`: a nullish receiver
short-circuits the optional chain to undefined (falsy); a string is
lowered and tested for substring occurrence; any other receiver has
no `toLowerCase` method, so the call throws a TypeError. -/
def jsToLowerIncludes (v : Json) (pat : String) : Except String Bool :=
  match v with
  | .null => .ok false
  | .str s => .ok (containsSub (lowerString s) pat)
  | _ => .error "TypeError: toLowerCase is not a function"

/-- The 403 upgrade test of `_handleError` (src/index.js line 156)
with full JavaScript evaluation semantics:
`(data.code || "").includes("upgrade") ||
data.error?.toLowerCase().includes("upgrade")` — the left operand is
evaluated first and a thrown TypeError propagates; when it yields
true, `||` short-circuits and the right operand is not evaluated. -/
def upgradeTestJS (data : Json) : Except String Bool :=
  match jsIncludes
    (if (data.get "code").truthy then data.get "code" else .str "")
    "upgrade" with
  | .error te => .error te
  | .ok true => .ok true
  | .ok false => jsToLowerIncludes (data.get "error") "upgrade"

mutual

/-- JavaScript template-literal display of a payload value (`null`
also stands for undefined; arrays join element displays with commas;
plain objects display as `[object Object]`). -/
def jsDisplay : Json → String
  | .null => "null"
  | .bool b => if b then "true" else "false"
  | .num n => toString n
  | .str s => s
  | .arr xs => jsDisplayList xs
  | .obj _ => "[object Object]"

/-- Comma-joined display of array elements (`Array.prototype.toString`). -/
def jsDisplayList : List Json → String
  | [] => ""
  | [x] => jsDisplay x
  | x :: y :: rest => jsDisplay x ++ "," ++ jsDisplayList (y :: rest)

end

/-- `_handleError(error, action)` (src/index.js lines 147-167) with
full JavaScript semantics: the 403 branch evaluates the upgrade test,
and the TypeError it throws on a truthy non-string `code` or a
non-nullish non-string `error` field escapes the catch block of the
calling method, which then rejects to its caller. -/
def handleErrorJS (e : HttpError) (action : String) :
    Except String (List String) :=
  match e with
  | .response status data =>
    if status = 429 then
      .ok ["[Novyx] Rate limit during " ++ action ++
        ". Upgrade at novyxlabs.com/pricing"]
    else if status = 403 then
      match upgradeTestJS data with
      | .error te => .error te
      | .ok true =>
        .ok ["[Novyx] " ++
          (if (data.get "error").truthy then jsDisplay (data.get "error")
           else "Upgrade required") ++
          " during " ++ action ++ ". Upgrade at novyxlabs.com/pricing"]
      | .ok false =>
        .ok ["[Novyx] Access forbidden during " ++ action ++
          ". Check your API key."]
    else
      .ok ["[Novyx] API Error (" ++ toString status ++ ") during " ++
        action ++ ":"]
  | .network msg =>
    .ok ["[Novyx] Network Error during " ++ action ++ ": " ++ msg]

/-- The ProviderError classification realized by `_handleError`'s
branching under full JavaScript semantics: total except where the
source line itself throws a TypeError. -/
def classifyJS (e : HttpError) : Except String ProviderError :=
  match e with
  | .response status data =>
    if status = 429 then .ok .rateLimited
    else if status = 403 then
      match upgradeTestJS data with
      | .error te => .error te
      | .ok true => .ok .forbiddenNeedsUpgrade
      | .ok false => .ok .forbiddenBadCredentials
    else .ok (.apiError status)
  | .network _ => .ok .networkError

/-- `remember(observation, tags)` (src/index.js lines 32-47): gated on
the API key and the `autoSave` toggle; on success returns
`response.data` whole; on failure logs via `_handleError` and returns
`null`. -/
def remember (m : NovyxMemory) (observation : String) (tags : List String)
    (out : Except HttpError Json) : CallResult :=
  if !keyTruthy m.apiKey || !m.autoSave then ⟨.null, [], []⟩
  else
    let req : Request :=
      ⟨"POST", m.apiUrl ++ "/v1/memories", [],
        .obj [("observation", .str observation),
              ("tags", .arr (tags.map .str))]⟩
    match out with
    | .ok data => ⟨data, [req], []⟩
    | .error e => ⟨.null, [req], handleError e "remember"⟩

/-- `forget(memoryId)` (src/index.js lines 52-64): gated on the API key
only; on success returns `response.data`, on failure `null`. -/
def forget (m : NovyxMemory) (memoryId : String)
    (out : Except HttpError Json) : CallResult :=
  if !keyTruthy m.apiKey then ⟨.null, [], []⟩
  else
    let req : Request :=
      ⟨"DELETE", m.apiUrl ++ "/v1/memories/" ++ memoryId, [], .null⟩
    match out with
    | .ok data => ⟨data, [req], []⟩
    | .error e => ⟨.null, [req], handleError e "forget"⟩

/-- `recall(query, limit)` (src/index.js lines 69-82): gated on the API
key and the `autoRecall` toggle; on success returns
`response.data.memories || []`, on failure `[]`. -/
def recall' (m : NovyxMemory) (query : String) (limit : Nat)
    (out : Except HttpError Json) : CallResult :=
  if !keyTruthy m.apiKey || !m.autoRecall then ⟨.arr [], [], []⟩
  else
    let req : Request :=
      ⟨"GET", m.apiUrl ++ "/v1/memories/search",
        [("q", query), ("limit", toString limit)], .null⟩
    match out with
    | .ok data =>
      ⟨if (data.get "memories").truthy then data.get "memories"
       else .arr [], [req], []⟩
    | .error e => ⟨.arr [], [req], handleError e "recall"⟩

/-- `stats()` (src/index.js lines 87-98). -/
def stats (m : NovyxMemory) (out : Except HttpError Json) : CallResult :=
  if !keyTruthy m.apiKey then ⟨.null, [], []⟩
  else
    let req : Request :=
      ⟨"GET", m.apiUrl ++ "/v1/memories/stats", [], .null⟩
    match out with
    | .ok data => ⟨data, [req], []⟩
    | .error e => ⟨.null, [req], handleError e "stats"⟩

/-- The optional filters accepted by `edges` (src/index.js lines
102-107). -/
structure EdgeOpts where
  memory_id : Option String
  relation : Option String
  limit : Option Int
  offset : Option Int

/-- Query-parameter assembly of `edges` (src/index.js lines 111-115):
string filters are included when truthy (non-empty), numeric ones when
not null (`!= null`). -/
def edgeParams (o : EdgeOpts) : List (String × String) :=
  (match o.memory_id with
   | some s => if s.isEmpty then [] else [("memory_id", s)]
   | none => []) ++
  (match o.relation with
   | some s => if s.isEmpty then [] else [("relation", s)]
   | none => []) ++
  (match o.limit with
   | some n => [("limit", toString n)]
   | none => []) ++
  (match o.offset with
   | some n => [("offset", toString n)]
   | none => [])

/-- `edges(opts)` (src/index.js lines 108-126): gated on the API key
only. -/
def edges (m : NovyxMemory) (opts : EdgeOpts)
    (out : Except HttpError Json) : CallResult :=
  if !keyTruthy m.apiKey then ⟨.null, [], []⟩
  else
    let req : Request :=
      ⟨"GET", m.apiUrl ++ "/v1/memories/edges", edgeParams opts, .null⟩
    match out with
    | .ok data => ⟨data, [req], []⟩
    | .error e => ⟨.null, [req], handleError e "edges"⟩

/-- `usage()` (src/index.js lines 131-142). -/
def usage (m : NovyxMemory) (out : Except HttpError Json) : CallResult :=
  if !keyTruthy m.apiKey then ⟨.null, [], []⟩
  else
    let req : Request := ⟨"GET", m.apiUrl ++ "/v1/usage", [], .null⟩
    match out with
    | .ok data => ⟨data, [req], []⟩
    | .error e => ⟨.null, [req], handleError e "usage"⟩

/-- `onMessage(userMessage, sessionId)` (src/index.js lines 172-179):
awaits `recall` on the message, fires a `remember` whose rejection is
swallowed (`.catch(() => ...)`), and returns the recall context — the
raw memories value, not a formatted text.  `recallOut` and `saveOut`
are the oracles for the two HTTP calls. -/
def onMessage (m : NovyxMemory) (userMessage sessionId : String)
    (recallOut saveOut : Except HttpError Json) : CallResult :=
  let ctx := recall' m userMessage m.recallLimit recallOut
  let sv := remember m userMessage
    ["role:user", "session:" ++ sessionId] saveOut
  ⟨ctx.result, ctx.requests ++ sv.requests, ctx.logs ++ sv.logs⟩

/-- `onResponse(agentResponse, sessionId)` (src/index.js lines
184-186): fire-and-forget save of the agent response; the method
itself resolves to `undefined` (modelled `.null`). -/
def onResponse (m : NovyxMemory) (agentResponse sessionId : String)
    (saveOut : Except HttpError Json) : CallResult :=
  let sv := remember m agentResponse
    ["role:assistant", "session:" ++ sessionId] saveOut
  ⟨.null, sv.requests, sv.logs⟩

/-!
The specification also describes a session write-ledger / undo /
command-dispatch subsystem (spec sections 3, 4.2, 4.4) and an
`auditLog` client method (section 4.1).  That code is part of this
repository but is not under `src/` (the repository README documents
its `!undo` / `!audit` commands); the definitions below, marked
`Modelled from the spec:`, embed it from the specification text.
-/

/-- Modelled from the spec: a WriteLogEntry of the Write Ledger
(section 3) — the server-assigned id, a bounded excerpt of the saved
content, and the write timestamp. -/
structure WriteLogEntry where
  id : String
  excerpt : String
  writtenAt : Nat
deriving DecidableEq

/-- Modelled from the spec: the hard per-invocation undo cap
(section 3, UndoRequest; default 10). -/
def undoCap : Nat := 10

/-- Modelled from the spec: extraction of the server-assigned id from
a save response body (section 4.1) — the primary field `uuid`, the
alternate field `id` when the primary is absent, `null` when neither
is present (section 6 lists the save payload fields as
`uuid` or `id`). -/
def extractIdSpec (data : Json) : Option String :=
  if (data.get "uuid").truthy then
    match data.get "uuid" with
    | .str s => some s
    | _ => none
  else if (data.get "id").truthy then
    match data.get "id" with
    | .str s => some s
    | _ => none
  else none

/-- Modelled from the spec: the extended `save` of the write-ledger
subsystem (section 4.1) — same credential and `autoSave` gating as
`remember`, but returning the extracted server-assigned id. -/
def saveSpec (m : NovyxMemory) (out : Except HttpError Json) :
    Option String :=
  if !keyTruthy m.apiKey || !m.autoSave then none
  else
    match out with
    | .ok data => extractIdSpec data
    | .error _ => none

/-- Modelled from the spec: `record(id, excerpt)` is called only after
a confirmed successful save — one that returned a non-null id
(sections 3 and 4.2); the ledger is otherwise untouched. -/
def saveTracked (m : NovyxMemory) (out : Except HttpError Json)
    (excerpt : String) (now : Nat) (ledger : List WriteLogEntry) :
    Option String × List WriteLogEntry :=
  match saveSpec m out with
  | some anId => (some anId, ledger ++ [⟨anId, excerpt, now⟩])
  | none => (none, ledger)

/-- Modelled from the spec: the Undo Engine (section 4.4) —
`effectiveCount = min(requestedCount, ledger length, cap)`; the last
`effectiveCount` entries are removed from the ledger and their ids
deleted in most-recent-first (reverse chronological) order.  Returns
the ids in deletion order and the remaining ledger. -/
def undo (requested : Nat) (ledger : List WriteLogEntry) :
    List String × List WriteLogEntry :=
  let effective := min requested (min ledger.length undoCap)
  let keep := ledger.length - effective
  ((ledger.drop keep).reverse.map (fun e => e.id), ledger.take keep)

/-- Modelled from the spec: `auditLog(limit)` (sections 4.1 and 6) —
credential-gated like every client method, `GET /v1/audit` with a
`limit` parameter, returning the response body or null. -/
def auditLog (m : NovyxMemory) (limit : Nat)
    (out : Except HttpError Json) : CallResult :=
  if !keyTruthy m.apiKey then ⟨.null, [], []⟩
  else
    let req : Request :=
      ⟨"GET", m.apiUrl ++ "/v1/audit", [("limit", toString limit)], .null⟩
    match out with
    | .ok data => ⟨data, [req], []⟩
    | .error e => ⟨.null, [req], handleError e "audit"⟩

/-- Modelled from the spec: the context-injection step of the
Conversation Middleware (section 4.5) — with at least one recalled
record, a fixed recalled-memory block (each record's observation
line-prefixed) followed by the original message; with none, the
original message unchanged. -/
def onIncomingSpec (records : List Json) (original : String) : Json :=
  if records.isEmpty then .str original
  else
    .str ("Recalled memory:\n" ++
      String.intercalate "\n"
        (records.map (fun r => "- " ++ jsonFieldStr r "observation")) ++
      "\n\n" ++ original)

/-- A helper for concrete ledgers: entry number `i`. -/
def mkEntry (i : Nat) : WriteLogEntry :=
  ⟨"m" ++ toString i, "excerpt", 0⟩

/-- A concrete ledger of `n` entries in save (oldest-first) order. -/
def ledgerN (n : Nat) : List WriteLogEntry :=
  (List.range n).map mkEntry

/-- One public client operation together with its arguments and the
oracle outcome of each HTTP call it performs. -/
inductive ClientOp where
  | opRemember (observation : String) (tags : List String)
      (out : Except HttpError Json) : ClientOp
  | opForget (memoryId : String) (out : Except HttpError Json) : ClientOp
  | opRecall (query : String) (limit : Nat)
      (out : Except HttpError Json) : ClientOp
  | opStats (out : Except HttpError Json) : ClientOp
  | opEdges (opts : EdgeOpts) (out : Except HttpError Json) : ClientOp
  | opUsage (out : Except HttpError Json) : ClientOp
  | opOnMessage (userMessage sessionId : String)
      (recallOut saveOut : Except HttpError Json) : ClientOp
  | opOnResponse (agentResponse sessionId : String)
      (saveOut : Except HttpError Json) : ClientOp

/-- Method-call semantics threading the instance state: every method
of `NovyxMemory` only reads `this`; no statement of `src/index.js`
assigns to an instance field, so the post-state equals the pre-state
by translation. -/
def runOp (m : NovyxMemory) : ClientOp → CallResult × NovyxMemory
  | .opRemember observation tags out => (remember m observation tags out, m)
  | .opForget memoryId out => (forget m memoryId out, m)
  | .opRecall query limit out => (recall' m query limit out, m)
  | .opStats out => (stats m out, m)
  | .opEdges opts out => (edges m opts out, m)
  | .opUsage out => (usage m out, m)
  | .opOnMessage u s rOut sOut => (onMessage m u s rOut sOut, m)
  | .opOnResponse a s sOut => (onResponse m a s sOut, m)

/-- A configured client used by concrete witnesses: a non-empty API
key and both toggles on. -/
def mConfigured : NovyxMemory :=
  ⟨some "key", "https://novyx-ram-api.fly.dev", true, true, 5⟩

/-- `remember` with the full-semantics error path: when `_handleError`
itself throws a TypeError, the async method rejects to its caller. -/
def rememberJS (m : NovyxMemory) (observation : String)
    (tags : List String) (out : Except HttpError Json) :
    Except String CallResult :=
  if !keyTruthy m.apiKey || !m.autoSave then .ok ⟨.null, [], []⟩
  else
    let req : Request :=
      ⟨"POST", m.apiUrl ++ "/v1/memories", [],
        .obj [("observation", .str observation),
              ("tags", .arr (tags.map .str))]⟩
    match out with
    | .ok data => .ok ⟨data, [req], []⟩
    | .error e =>
      match handleErrorJS e "remember" with
      | .ok logs => .ok ⟨.null, [req], logs⟩
      | .error te => .error te

/-- `forget` with the full-semantics error path. -/
def forgetJS (m : NovyxMemory) (memoryId : String)
    (out : Except HttpError Json) : Except String CallResult :=
  if !keyTruthy m.apiKey then .ok ⟨.null, [], []⟩
  else
    let req : Request :=
      ⟨"DELETE", m.apiUrl ++ "/v1/memories/" ++ memoryId, [], .null⟩
    match out with
    | .ok data => .ok ⟨data, [req], []⟩
    | .error e =>
      match handleErrorJS e "forget" with
      | .ok logs => .ok ⟨.null, [req], logs⟩
      | .error te => .error te

/-- `recall` with the full-semantics error path. -/
def recallJS (m : NovyxMemory) (query : String) (limit : Nat)
    (out : Except HttpError Json) : Except String CallResult :=
  if !keyTruthy m.apiKey || !m.autoRecall then .ok ⟨.arr [], [], []⟩
  else
    let req : Request :=
      ⟨"GET", m.apiUrl ++ "/v1/memories/search",
        [("q", query), ("limit", toString limit)], .null⟩
    match out with
    | .ok data =>
      .ok ⟨if (data.get "memories").truthy then data.get "memories"
           else .arr [], [req], []⟩
    | .error e =>
      match handleErrorJS e "recall" with
      | .ok logs => .ok ⟨.arr [], [req], logs⟩
      | .error te => .error te

/-- `stats` with the full-semantics error path. -/
def statsJS (m : NovyxMemory) (out : Except HttpError Json) :
    Except String CallResult :=
  if !keyTruthy m.apiKey then .ok ⟨.null, [], []⟩
  else
    let req : Request :=
      ⟨"GET", m.apiUrl ++ "/v1/memories/stats", [], .null⟩
    match out with
    | .ok data => .ok ⟨data, [req], []⟩
    | .error e =>
      match handleErrorJS e "stats" with
      | .ok logs => .ok ⟨.null, [req], logs⟩
      | .error te => .error te

/-- `edges` with the full-semantics error path. -/
def edgesJS (m : NovyxMemory) (opts : EdgeOpts)
    (out : Except HttpError Json) : Except String CallResult :=
  if !keyTruthy m.apiKey then .ok ⟨.null, [], []⟩
  else
    let req : Request :=
      ⟨"GET", m.apiUrl ++ "/v1/memories/edges", edgeParams opts, .null⟩
    match out with
    | .ok data => .ok ⟨data, [req], []⟩
    | .error e =>
      match handleErrorJS e "edges" with
      | .ok logs => .ok ⟨.null, [req], logs⟩
      | .error te => .error te

/-- `usage` with the full-semantics error path. -/
def usageJS (m : NovyxMemory) (out : Except HttpError Json) :
    Except String CallResult :=
  if !keyTruthy m.apiKey then .ok ⟨.null, [], []⟩
  else
    let req : Request := ⟨"GET", m.apiUrl ++ "/v1/usage", [], .null⟩
    match out with
    | .ok data => .ok ⟨data, [req], []⟩
    | .error e =>
      match handleErrorJS e "usage" with
      | .ok logs => .ok ⟨.null, [req], logs⟩
      | .error te => .error te

/-- The failing input of claims C1 and C6: a 403 response whose
payload has a truthy non-string `code` field. -/
def badCodePayload : Json := Json.obj [("code", Json.num 42)]

/-- A 403 payload whose `error` field is non-nullish but not a
string. -/
def badErrorPayload : Json := Json.obj [("error", Json.num 7)]

/-- Claim C1 is contradicted by the code: on a 403 response whose
payload carries a truthy non-string `code` field (here `code: 42`),
`code.includes` is not a function (src/index.js line 156), the
TypeError escapes the catch block, and every operation rejects to its
caller instead of returning its null/empty zero-value — against the
source's own header ("Handles rate limits (429) and forbidden (403)
gracefully") and README ("will not crash your bot"). -/
theorem c1_nonstring_code_payload_throws :
    handleErrorJS (.response 403 badCodePayload) "remember" =
      .error "TypeError: includes is not a function" ∧
    rememberJS mConfigured "obs" []
      (.error (.response 403 badCodePayload)) =
      .error "TypeError: includes is not a function" ∧
    forgetJS mConfigured "id9" (.error (.response 403 badCodePayload)) =
      .error "TypeError: includes is not a function" ∧
    recallJS mConfigured "q" 5 (.error (.response 403 badCodePayload)) =
      .error "TypeError: includes is not a function" ∧
    statsJS mConfigured (.error (.response 403 badCodePayload)) =
      .error "TypeError: includes is not a function" ∧
    edgesJS mConfigured ⟨none, none, none, none⟩
      (.error (.response 403 badCodePayload)) =
      .error "TypeError: includes is not a function" ∧
    usageJS mConfigured (.error (.response 403 badCodePayload)) =
      .error "TypeError: includes is not a function" := by
  refine ⟨?_, ?_, ?_, ?_, ?_, ?_, ?_⟩ <;> rfl

/-- Claim C2: with no API key configured, every public operation —
save, search, delete, stats, usage, audit (and edges) — immediately
returns its null/empty zero-value and performs zero network calls
(the issued-request list is empty). -/
theorem c2_unconfigured_fail_open
    (m : NovyxMemory) (observation memoryId query : String)
    (tags : List String) (limit : Nat) (opts : EdgeOpts)
    (out : Except HttpError Json) (h : keyTruthy m.apiKey = false) :
    remember m observation tags out = ⟨.null, [], []⟩ ∧
    forget m memoryId out = ⟨.null, [], []⟩ ∧
    recall' m query limit out = ⟨.arr [], [], []⟩ ∧
    stats m out = ⟨.null, [], []⟩ ∧
    edges m opts out = ⟨.null, [], []⟩ ∧
    usage m out = ⟨.null, [], []⟩ ∧
    auditLog m limit out = ⟨.null, [], []⟩ := by
  refine ⟨?_, ?_, ?_, ?_, ?_, ?_, ?_⟩ <;>
    simp [remember, forget, recall', stats, edges, usage, auditLog, h]

/-- Witness for C2 at a concrete unconfigured client. -/
theorem c2_unconfigured_fail_open_witness :
    keyTruthy (none : Option String) = false ∧
    (remember ⟨none, "https://novyx-ram-api.fly.dev", true, true, 5⟩
        "obs" ["t"] (.ok Json.null) = ⟨.null, [], []⟩ ∧
     forget ⟨none, "https://novyx-ram-api.fly.dev", true, true, 5⟩
        "id7" (.ok Json.null) = ⟨.null, [], []⟩ ∧
     recall' ⟨none, "https://novyx-ram-api.fly.dev", true, true, 5⟩
        "q" 5 (.ok Json.null) = ⟨.arr [], [], []⟩ ∧
     stats ⟨none, "https://novyx-ram-api.fly.dev", true, true, 5⟩
        (.ok Json.null) = ⟨.null, [], []⟩ ∧
     edges ⟨none, "https://novyx-ram-api.fly.dev", true, true, 5⟩
        ⟨none, none, none, none⟩ (.ok Json.null) = ⟨.null, [], []⟩ ∧
     usage ⟨none, "https://novyx-ram-api.fly.dev", true, true, 5⟩
        (.ok Json.null) = ⟨.null, [], []⟩ ∧
     auditLog ⟨none, "https://novyx-ram-api.fly.dev", true, true, 5⟩
        5 (.ok Json.null) = ⟨.null, [], []⟩) :=
  ⟨rfl, c2_unconfigured_fail_open
    ⟨none, "https://novyx-ram-api.fly.dev", true, true, 5⟩
    "obs" "id7" "q" ["t"] 5 ⟨none, none, none, none⟩ (.ok Json.null) rfl⟩

/-- Claim C9: every public operation leaves the client configuration
fields (apiKey, apiUrl, autoSave, autoRecall, recallLimit) unchanged —
no method of the class assigns to an instance field, so the threaded
post-state of `runOp` keeps every field. -/
theorem c9_config_immutable (m : NovyxMemory) (op : ClientOp) :
    (runOp m op).2.apiKey = m.apiKey ∧
    (runOp m op).2.apiUrl = m.apiUrl ∧
    (runOp m op).2.autoSave = m.autoSave ∧
    (runOp m op).2.autoRecall = m.autoRecall ∧
    (runOp m op).2.recallLimit = m.recallLimit := by
  cases op <;> exact ⟨rfl, rfl, rfl, rfl, rfl⟩

/-- Claim C10: on a successful search response whose body lacks the
`memories` field (or whose `memories` field is falsy), `recall`
returns the empty list — never null or undefined. -/
theorem c10_recall_defaults_to_empty_list
    (m : NovyxMemory) (query : String) (limit : Nat) (data : Json)
    (h : (data.get "memories").truthy = false) :
    (recall' m query limit (.ok data)).result = Json.arr [] := by
  simp only [recall']
  split
  · rfl
  · simp [h]

/-- Witness for C10: a response body with no `memories` field. -/
theorem c10_recall_defaults_to_empty_list_witness :
    Json.truthy ((Json.obj [("status", Json.str "ok")]).get "memories")
      = false ∧
    (recall' mConfigured "q" 5
      (.ok (Json.obj [("status", Json.str "ok")]))).result = Json.arr [] :=
  ⟨rfl, c10_recall_defaults_to_empty_list mConfigured "q" 5
    (Json.obj [("status", Json.str "ok")]) rfl⟩

/-- Claim C6 is contradicted by the code on the classifier's TypeError
path: a 403 whose payload has a non-nullish non-string `error` field
(here `error: 7`) makes `data.error?.toLowerCase()` throw
(src/index.js line 156), so instead of classifying
Forbidden-BadCredentials and returning null the operation rejects to
its caller.  On payloads the source does handle, the classification
matches the claimed mapping — 429 to RateLimited, 403 with an
upgrade-indicating `code` (a string containing "upgrade", or an array
containing the string "upgrade", which Array.includes accepts) to
Forbidden-NeedsUpgrade, 403 otherwise to Forbidden-BadCredentials,
another status with a response to ApiError, no response to
NetworkError. -/
theorem c6_classifier_typeerror_on_nonstring_error_field :
    classifyJS (.response 403 badErrorPayload) =
      .error "TypeError: toLowerCase is not a function" ∧
    forgetJS mConfigured "id9" (.error (.response 403 badErrorPayload)) =
      .error "TypeError: toLowerCase is not a function" ∧
    classifyJS (.response 403 badCodePayload) =
      .error "TypeError: includes is not a function" ∧
    classifyJS (.response 429 Json.null) = .ok .rateLimited ∧
    classifyJS (.response 403
      (Json.obj [("code", Json.str "plan_upgrade_required")])) =
      .ok .forbiddenNeedsUpgrade ∧
    classifyJS (.response 403
      (Json.obj [("code", Json.arr [Json.str "upgrade"])])) =
      .ok .forbiddenNeedsUpgrade ∧
    classifyJS (.response 403
      (Json.obj [("error", Json.str "Upgrade to Pro")])) =
      .ok .forbiddenNeedsUpgrade ∧
    classifyJS (.response 403 (Json.obj [("reason", Json.str "bad key")])) =
      .ok .forbiddenBadCredentials ∧
    classifyJS (.response 500 Json.null) = .ok (.apiError 500) ∧
    classifyJS (.network "socket hang up") = .ok .networkError := by
  refine ⟨?_, ?_, ?_, ?_, ?_, ?_, ?_, ?_, ?_, ?_⟩ <;> rfl

/-- Claim C7: with a valid credential, `autoSave = false` makes save
return null, issue no request and leave the (spec-modelled) write
ledger unchanged, exactly as if unconfigured; `autoRecall = false`
makes search return the empty list exactly as if unconfigured; and no
other operation (forget, stats, edges, usage) is gated by either
toggle. -/
theorem c7_toggle_gating
    (m : NovyxMemory) (observation memoryId query : String)
    (tags : List String) (limit : Nat) (opts : EdgeOpts)
    (out : Except HttpError Json) (excerpt : String) (now : Nat)
    (ledger : List WriteLogEntry) (a b : Bool) :
    (m.autoSave = false →
      remember m observation tags out = ⟨.null, [], []⟩ ∧
      remember m observation tags out =
        remember { m with apiKey := none } observation tags out ∧
      (saveTracked m out excerpt now ledger).2 = ledger) ∧
    (m.autoRecall = false →
      recall' m query limit out = ⟨.arr [], [], []⟩ ∧
      recall' m query limit out =
        recall' { m with apiKey := none } query limit out) ∧
    forget { m with autoSave := a, autoRecall := b } memoryId out =
      forget m memoryId out ∧
    stats { m with autoSave := a, autoRecall := b } out = stats m out ∧
    edges { m with autoSave := a, autoRecall := b } opts out =
      edges m opts out ∧
    usage { m with autoSave := a, autoRecall := b } out = usage m out := by
  refine ⟨?_, ?_, rfl, rfl, rfl, rfl⟩
  · intro h
    refine ⟨?_, ?_, ?_⟩
    · simp [remember, h]
    · simp [remember, h, keyTruthy]
    · simp [saveTracked, saveSpec, h]
  · intro h
    exact ⟨by simp [recall', h], by simp [recall', h, keyTruthy]⟩

/-- Witness for C7: a client with a valid key and both toggles off;
the toggle-insensitivity conjuncts are applied at toggles flipped to
true. -/
theorem c7_toggle_gating_witness :
    (⟨some "key", "u", false, false, 5⟩ : NovyxMemory).autoSave = false ∧
    (⟨some "key", "u", false, false, 5⟩ : NovyxMemory).autoRecall = false ∧
    remember ⟨some "key", "u", false, false, 5⟩ "obs" ["t"]
      (.ok (Json.str "body")) = ⟨.null, [], []⟩ ∧
    (saveTracked ⟨some "key", "u", false, false, 5⟩
      (.ok (Json.obj [("uuid", Json.str "x")])) "e" 0 []).2 = [] ∧
    recall' ⟨some "key", "u", false, false, 5⟩ "q" 5
      (.ok (Json.obj [("memories", Json.arr [Json.str "r"])])) =
      ⟨.arr [], [], []⟩ ∧
    forget ⟨some "key", "u", true, true, 5⟩ "id3" (.ok Json.null) =
      forget ⟨some "key", "u", false, false, 5⟩ "id3" (.ok Json.null) := by
  have h1 := c7_toggle_gating ⟨some "key", "u", false, false, 5⟩
    "obs" "id3" "q" ["t"] 5 ⟨none, none, none, none⟩
    (.ok (Json.str "body")) "e" 0 [] true true
  have h2 := c7_toggle_gating ⟨some "key", "u", false, false, 5⟩
    "obs" "id3" "q" ["t"] 5 ⟨none, none, none, none⟩
    (.ok (Json.obj [("uuid", Json.str "x")])) "e" 0 [] true true
  have h3 := c7_toggle_gating ⟨some "key", "u", false, false, 5⟩
    "obs" "id3" "q" ["t"] 5 ⟨none, none, none, none⟩
    (.ok (Json.obj [("memories", Json.arr [Json.str "r"])])) "e" 0 []
    true true
  have h4 := c7_toggle_gating ⟨some "key", "u", false, false, 5⟩
    "obs" "id3" "q" ["t"] 5 ⟨none, none, none, none⟩
    (.ok Json.null) "e" 0 [] true true
  exact ⟨rfl, rfl, (h1.1 rfl).1, (h2.1 rfl).2.2, (h3.2.1 rfl).1,
    h4.2.2.1.symm⟩

/-- Claim C3 counterexample: eleven successful saves followed by
`undo(11)` — the claim (`k ≤ N` alone) predicts all eleven ids deleted
newest-first and an empty ledger, but the per-invocation cap of 10
(spec section 3, UndoRequest) leaves one entry: only 10 entries are
removed. -/
theorem c3_undo_lifo_counterexample :
    ¬ ((undo 11 (ledgerN 11)).1 =
        ((ledgerN 11).map (fun e => e.id)).reverse ∧
       (undo 11 (ledgerN 11)).2 = []) := by
  decide

/-- Claim C3 (amended): for every sequence of N successful saves
followed by `undo(k)` with k ≤ N and additionally k within the
per-invocation cap (k ≤ 10), the k most-recently-saved ids are deleted
in reverse order of saving (newest first) and the ledger afterward
holds exactly the first N − k entries, oldest-first. -/
theorem c3_undo_lifo
    (ledger : List WriteLogEntry) (k : Nat)
    (hk : k ≤ ledger.length) (hcap : k ≤ undoCap) :
    (undo k ledger).1 =
      ((ledger.drop (ledger.length - k)).reverse).map (fun e => e.id) ∧
    (undo k ledger).2 = ledger.take (ledger.length - k) ∧
    (undo k ledger).2.length = ledger.length - k := by
  have heff : min k (min ledger.length undoCap) = k :=
    Nat.min_eq_left (le_min hk hcap)
  refine ⟨?_, ?_, ?_⟩
  · simp [undo, heff]
  · simp [undo, heff]
  · simp [undo, heff]

/-- Witness for C3 (amended) at a concrete three-entry ledger with
k = 2. -/
theorem c3_undo_lifo_witness :
    2 ≤ (ledgerN 3).length ∧ 2 ≤ undoCap ∧
    ((undo 2 (ledgerN 3)).1 =
      (((ledgerN 3).drop ((ledgerN 3).length - 2)).reverse).map
        (fun e => e.id) ∧
     (undo 2 (ledgerN 3)).2 = (ledgerN 3).take ((ledgerN 3).length - 2) ∧
     (undo 2 (ledgerN 3)).2.length = (ledgerN 3).length - 2) :=
  ⟨by decide, by decide, c3_undo_lifo (ledgerN 3) 2 (by decide) (by decide)⟩

/-- Claim C8: for every undo invocation with requested count r on a
ledger of length L, the number of ids deleted (= deletes attempted)
equals min(r, L, 10) and exactly that many entries leave the ledger;
in particular `undo 1000` on a three-entry ledger deletes 3. -/
theorem c8_undo_cap (requested : Nat) (ledger : List WriteLogEntry) :
    (undo requested ledger).1.length =
      min requested (min ledger.length undoCap) ∧
    ledger.length - (undo requested ledger).2.length =
      min requested (min ledger.length undoCap) ∧
    (undo 1000 (ledgerN 3)).1.length = 3 := by
  refine ⟨?_, ?_, by decide⟩
  · simp [undo]
    omega
  · simp [undo]
    omega

/-- A concrete successful save response body: the server-assigned
uuid plus another field. -/
def saveBodyEx : Json :=
  Json.obj [("uuid", Json.str "abc"), ("status", Json.str "ok")]

/-- Claim C4 counterexample: on a successful save whose response body
carries uuid "abc", `remember` returns the whole response body, not
the extracted id the claim describes (the spec-modelled extraction
yields `some "abc"`, but the returned value is the object itself, not
the string "abc"). -/
theorem c4_save_id_counterexample :
    extractIdSpec saveBodyEx = some "abc" ∧
    (remember mConfigured "obs" [] (.ok saveBodyEx)).result = saveBodyEx ∧
    (remember mConfigured "obs" [] (.ok saveBodyEx)).result ≠
      Json.str "abc" := by
  refine ⟨by decide, rfl, ?_⟩
  intro hEq
  have h2 : saveBodyEx = Json.str "abc" := hEq
  exact Json.noConfusion h2

/-- Claim C4 (amended): for every successful save call on a configured
client with `autoSave` on, `remember` returns the full response body
as received; the server-assigned id is available inside it (primary
field `uuid`, alternate field `id`, per the spec-modelled
`extractIdSpec`) but is not extracted by the client under `src/`. -/
theorem c4_save_returns_full_body
    (m : NovyxMemory) (observation : String) (tags : List String)
    (data : Json) (hkey : keyTruthy m.apiKey = true)
    (hsave : m.autoSave = true) :
    (remember m observation tags (.ok data)).result = data := by
  simp [remember, hkey, hsave]

/-- Witness for C4 (amended) at a concrete configured client. -/
theorem c4_save_returns_full_body_witness :
    keyTruthy mConfigured.apiKey = true ∧ mConfigured.autoSave = true ∧
    (remember mConfigured "obs" ["t"] (.ok saveBodyEx)).result =
      saveBodyEx :=
  ⟨by decide, rfl, c4_save_returns_full_body mConfigured "obs" ["t"]
    saveBodyEx (by decide) rfl⟩

/-- Claim C5 counterexample: a message on which the awaited recall
returns no records — the claim requires the original message
unchanged (the spec-modelled `onIncomingSpec` on zero records), but
`onMessage` returns the raw empty context array, not the message
string. -/
theorem c5_onmessage_counterexample :
    (recall' mConfigured "what database" 5 (.ok (Json.obj []))).result =
      Json.arr [] ∧
    onIncomingSpec [] "what database" = Json.str "what database" ∧
    (onMessage mConfigured "what database" "s1" (.ok (Json.obj []))
      (.ok Json.null)).result = Json.arr [] ∧
    (onMessage mConfigured "what database" "s1" (.ok (Json.obj []))
      (.ok Json.null)).result ≠ onIncomingSpec [] "what database" := by
  refine ⟨rfl, rfl, rfl, ?_⟩
  intro hEq
  have h2 : Json.arr [] = Json.str "what database" := hEq
  exact Json.noConfusion h2

/-- Claim C5 (amended): on a configured client with `autoRecall` on,
`onMessage` returns the raw recall context — the `memories` value of
the response when truthy, the empty array otherwise — and performs no
formatting: no recalled-memory block is built and the original message
is not included in the return value. -/
theorem c5_onmessage_returns_raw_context
    (m : NovyxMemory) (userMessage sessionId : String) (data : Json)
    (saveOut : Except HttpError Json)
    (hkey : keyTruthy m.apiKey = true) (hrec : m.autoRecall = true) :
    (onMessage m userMessage sessionId (.ok data) saveOut).result =
      (if (data.get "memories").truthy then data.get "memories"
       else Json.arr []) := by
  simp [onMessage, recall', hkey, hrec]

/-- Witness for C5 (amended): one recalled record is handed back raw. -/
theorem c5_onmessage_returns_raw_context_witness :
    keyTruthy mConfigured.apiKey = true ∧ mConfigured.autoRecall = true ∧
    (onMessage mConfigured "what database" "s1"
      (.ok (Json.obj [("memories",
        Json.arr [Json.obj [("observation", Json.str "Uses Postgres")]])]))
      (.ok Json.null)).result =
      (if ((Json.obj [("memories",
          Json.arr [Json.obj [("observation", Json.str "Uses Postgres")]])]).get
            "memories").truthy then
        (Json.obj [("memories",
          Json.arr [Json.obj [("observation", Json.str "Uses Postgres")]])]).get
            "memories"
       else Json.arr []) :=
  ⟨by decide, rfl, c5_onmessage_returns_raw_context mConfigured
    "what database" "s1"
    (Json.obj [("memories",
      Json.arr [Json.obj [("observation", Json.str "Uses Postgres")]])])
    (.ok Json.null) (by decide) rfl⟩
